import Mathlib

/-!
Shallow embedding of the execution-debugging subsystem of the Hive
repository (`core/framework/debug/`): `tracer.py`, `debugger.py`,
`inspector.py` and `visualizer.py`, together with theorems settling the
specification claims about it.

Modelling conventions:
- Python `float` timestamps become `Int` values passed explicitly to the
  operations that would call `time.time()`.
- Python object identity for `ToolCall` records is modelled by an `id`
  field allocated from a counter in the tracer state; the active-call
  list holds ids and the trace holds the records, so in-place mutation
  of a shared object becomes an id-directed update of both.
- Python truthiness of `Optional[str]` (None and "" are falsy) is made
  explicit by `strOptTruthy`.
- Display-only machinery (`format_*`, previews, timestamps beyond a
  caller-supplied string) is elided; every field and branch that a claim
  depends on is embedded.
-/

namespace Hive

/-- Python truthiness of an `Optional[str]` value: `None` and the empty
string are falsy, every other string is truthy. -/
def strOptTruthy : Option String → Bool
  | none => false
  | some s => s != ""

/-- Python `needle in hay` substring test on strings. -/
def strContainsAux (needle : List Char) : List Char → Bool
  | [] => needle.isPrefixOf []
  | c :: cs => needle.isPrefixOf (c :: cs) || strContainsAux needle cs

/-- Python `needle in hay` substring test on strings. -/
def strContains (hay needle : String) : Bool :=
  strContainsAux needle.toList hay.toList

/-! ## tracer.py -/

/-- Record of a single tool invocation (`tracer.py`, `ToolCall`).
`id` models Python object identity (see module docstring); `arguments`
is the value-level view of the argument dict (the reference-level view
used to analyse the copy in `start_tool_call` is `PyVal` below). -/
structure ToolCall where
  id : Nat
  tool_name : String
  arguments : List (String × Int)
  start_time : Int
  end_time : Option Int := none
  duration_ms : Option Int := none
  result : Option Int := none
  error : Option String := none
  status : String := "pending"
  call_stack_depth : Int := 0
deriving DecidableEq

/-- Complete trace of an execution path (`tracer.py`, `ExecutionTrace`).
`edge_traversals` is elided (no claim mentions it). -/
structure ExecutionTrace where
  trace_id : String
  start_time : Int
  end_time : Option Int := none
  node_sequence : List String := []
  tool_calls : List ToolCall := []
  total_duration_ms : Option Int := none
deriving DecidableEq

/-- State of `ToolCallTracer` (`tracer.py`).  `active_tool_calls` holds the
ids of the open calls (the Python list holds the objects themselves and
removes by equality, which for distinct live objects is identity);
`next_id` is the identity allocator. -/
structure ToolCallTracer where
  enable_timing : Bool := true
  current_trace : Option ExecutionTrace := none
  traces : List ExecutionTrace := []
  active_tool_calls : List Nat := []
  call_stack_depth : Int := 0
  next_id : Nat := 0
deriving DecidableEq

/-- `ToolCallTracer.__init__`. -/
def tracerInit : ToolCallTracer := {}

/-- `ToolCallTracer.start_trace`. -/
def start_trace (t : ToolCallTracer) (trace_id : String) (now : Int) :
    ToolCallTracer × ExecutionTrace :=
  let trace : ExecutionTrace := { trace_id := trace_id, start_time := now }
  ({ t with current_trace := some trace, traces := t.traces ++ [trace] }, trace)

/-- `ToolCallTracer.start_tool_call`: builds the record stamped with the
depth *before* the increment, appends it to the active list, increments
the stack depth, and appends it to the current trace if one exists. -/
def start_tool_call (t : ToolCallTracer) (tool_name : String)
    (arguments : List (String × Int)) (now : Int) : ToolCallTracer × ToolCall :=
  let tool_call : ToolCall :=
    { id := t.next_id
      tool_name := tool_name
      arguments := arguments
      start_time := now
      call_stack_depth := t.call_stack_depth }
  ({ t with
      active_tool_calls := t.active_tool_calls ++ [tool_call.id]
      call_stack_depth := t.call_stack_depth + 1
      next_id := t.next_id + 1
      current_trace :=
        match t.current_trace with
        | some tr => some { tr with tool_calls := tr.tool_calls ++ [tool_call] }
        | none => none },
   tool_call)

/-- The mutation `end_tool_call` performs on the `ToolCall` object itself:
stamps the end time, computes the duration when both times are truthy
(Python `if tool_call.start_time and tool_call.end_time:` — `0.0` is
falsy), and branches on the truthiness of `error`. -/
def finishCall (tc : ToolCall) (result : Option Int) (error : Option String)
    (now : Int) : ToolCall :=
  let tc1 := { tc with end_time := some now }
  let tc2 :=
    if tc1.start_time != 0 && now != 0 then
      { tc1 with duration_ms := some ((now - tc1.start_time) * 1000) }
    else tc1
  if strOptTruthy error then { tc2 with status := "failed", error := error }
  else { tc2 with status := "success", result := result }

/-- `ToolCallTracer.end_tool_call`: finalizes the call record (visible
through every alias, i.e. in the current trace), removes the call from
the active list, and decrements the stack depth with a floor of zero. -/
def end_tool_call (t : ToolCallTracer) (tool_call : ToolCall)
    (result : Option Int) (error : Option String) (now : Int) :
    ToolCallTracer × ToolCall :=
  let tc2 := finishCall tool_call result error now
  ({ t with
      current_trace := t.current_trace.map (fun tr =>
        { tr with tool_calls :=
            tr.tool_calls.map (fun c => if c.id = tool_call.id then tc2 else c) })
      active_tool_calls := t.active_tool_calls.erase tool_call.id
      call_stack_depth := max 0 (t.call_stack_depth - 1) },
   tc2)

/-- The statistics dictionary of `get_tool_call_stats` (the `timing` and
`by_tool` sub-dictionaries are elided; no claim mentions them). -/
structure ToolCallStats where
  total_calls : Nat
  successful : Nat
  failed : Nat
  tools_used : List String
deriving DecidableEq

/-- `ToolCallTracer.get_tool_call_stats`: `none` models the
`{"error": "No active trace"}` payload returned without a current trace. -/
def get_tool_call_stats (t : ToolCallTracer) : Option ToolCallStats :=
  match t.current_trace with
  | none => none
  | some tr =>
    let tool_calls := tr.tool_calls
    some
      { total_calls := tool_calls.length
        successful := (tool_calls.filter (fun tc => tc.status == "success")).length
        failed := (tool_calls.filter (fun tc => tc.status == "failed")).length
        tools_used := (tool_calls.map (fun tc => tc.tool_name)).dedup }

/-- One tracer operation, for reasoning about sequences of
`start_tool_call` / `end_tool_call` invocations. -/
inductive TraceOp where
  | start (tool_name : String) (arguments : List (String × Int)) (now : Int)
  | close (tool_call : ToolCall) (result : Option Int) (error : Option String) (now : Int)

/-- Apply one operation to the tracer state. -/
def applyOp (t : ToolCallTracer) : TraceOp → ToolCallTracer
  | .start n a now => (start_tool_call t n a now).1
  | .close tc r e now => (end_tool_call t tc r e now).1

/-- Run a sequence of tracer operations. -/
def runOps (t : ToolCallTracer) (ops : List TraceOp) : ToolCallTracer :=
  ops.foldl applyOp t

/-- Well-nested (Dyck) sequences of start/close operations: every close
matches an enclosing start. -/
inductive Balanced : List TraceOp → Prop where
  | nil : Balanced []
  | wrap (n : String) (a : List (String × Int)) (now : Int) (tc : ToolCall)
      (r : Option Int) (e : Option String) (now2 : Int) (w : List TraceOp) :
      Balanced w → Balanced (TraceOp.start n a now :: w ++ [TraceOp.close tc r e now2])
  | append (u v : List TraceOp) : Balanced u → Balanced v → Balanced (u ++ v)

/-! ### Reference-level view of the argument snapshot in `start_tool_call`

`start_tool_call` stores `arguments.copy()` — Python's *shallow* dict
copy.  To reason about mutation visibility, argument values are modelled
as either immutable primitives or references into a heap of mutable list
objects. -/

/-- A Python value held in an argument dict: an immutable primitive or a
reference to a mutable list object in the heap. -/
inductive PyVal where
  | prim (n : Int)
  | ref (addr : Nat)
deriving DecidableEq

/-- The heap of mutable list objects, indexed by address. -/
abbrev PyHeap := List (List Int)

/-- The argument-snapshot step of `start_tool_call` (`arguments.copy()`,
tracer.py line 123) under the reference model: a shallow copy duplicates
the top-level key/value entries and *shares* every reference. -/
def start_tool_call_arguments_snapshot (arguments : List (String × PyVal)) :
    List (String × PyVal) := arguments

/-- In-place mutation of the list object at address `a` (e.g.
`caller_args["x"].append(...)` / item assignment on a nested list). -/
def heapSet (heap : PyHeap) (a : Nat) (xs : List Int) : PyHeap := heap.set a xs

/-- The value a debugger user observes for an entry: primitives as-is,
references dereferenced through the heap. -/
inductive ObsVal where
  | int (n : Int)
  | list (xs : List Int)
deriving DecidableEq

/-- Observe one stored value through the heap. -/
def materializeVal (heap : PyHeap) : PyVal → ObsVal
  | .prim n => .int n
  | .ref a => .list (heap.getD a [])

/-- Observe a whole recorded argument dict through the heap. -/
def materialize (heap : PyHeap) (args : List (String × PyVal)) :
    List (String × ObsVal) :=
  args.map (fun p => (p.1, materializeVal heap p.2))

/-! ## debugger.py -/

/-- `BreakpointType` enum (`debugger.py`). -/
inductive BreakpointType where
  | NODE_ENTER
  | NODE_EXIT
  | EDGE_TRAVERSE
  | CONDITION_EVAL
  | TOOL_CALL
  | ERROR
deriving DecidableEq

/-- The `.value` strings of `BreakpointType`. -/
def BreakpointType.value : BreakpointType → String
  | .NODE_ENTER => "node_enter"
  | .NODE_EXIT => "node_exit"
  | .EDGE_TRAVERSE => "edge_traverse"
  | .CONDITION_EVAL => "condition_eval"
  | .TOOL_CALL => "tool_call"
  | .ERROR => "error"

/-- A debugging breakpoint (`debugger.py`, `Breakpoint`). -/
structure Breakpoint where
  id : String
  breakpoint_type : BreakpointType
  target : String
  condition : Option String := none
  enabled : Bool := true
  hit_count : Nat := 0
deriving DecidableEq

/-- Execution context passed to condition evaluation (Python dict,
restricted here to integer values — the claims only need truthiness of
the evaluation result, which the evaluator oracle reports directly). -/
abbrev Ctx := List (String × Int)

/-- The breakpoint id `f"{breakpoint_type.value}:{target}"`. -/
def bpId (breakpoint_type : BreakpointType) (target : String) : String :=
  breakpoint_type.value ++ ":" ++ target

/-- Python dict assignment `d[k] = v`: replace in place if the key is
present, else append (insertion order preserved). -/
def dictSet (m : List (String × Breakpoint)) (k : String) (v : Breakpoint) :
    List (String × Breakpoint) :=
  if (m.lookup k).isSome then
    m.map (fun p => if p.1 = k then (k, v) else p)
  else m ++ [(k, v)]

/-- `AgentDebugger.set_breakpoint` acting on the breakpoints dict. -/
def set_breakpoint (breakpoints : List (String × Breakpoint)) (target : String)
    (breakpoint_type : BreakpointType) (condition : Option String) :
    List (String × Breakpoint) × Breakpoint :=
  let bp : Breakpoint :=
    { id := bpId breakpoint_type target
      breakpoint_type := breakpoint_type
      target := target
      condition := condition }
  (dictSet breakpoints bp.id bp, bp)

/-- In-place `breakpoint.hit_count += 1` on the object stored in the dict. -/
def bumpHit (m : List (String × Breakpoint)) (k : String) :
    List (String × Breakpoint) :=
  m.map (fun p => if p.1 = k then (p.1, { p.2 with hit_count := p.2.hit_count + 1 }) else p)

/-- `AgentDebugger._should_break`.  `ev` is the oracle for Python
`eval(condition, {"context": context})`: `.error ()` models a raised
exception, `.ok b` the truthiness of the produced value.  The function
is total — an evaluation error is swallowed into a `false` verdict, as
in the source's `except Exception: return False`.  Note Python's
`if breakpoint.condition:` — an empty-string condition is falsy and is
skipped exactly like `None`. -/
def _should_break (ev : String → Ctx → Except Unit Bool)
    (breakpoints : List (String × Breakpoint)) (breakpoint_type : BreakpointType)
    (target : String) (context : Ctx) : Bool × List (String × Breakpoint) :=
  let bp_id := bpId breakpoint_type target
  match breakpoints.lookup bp_id with
  | none => (false, breakpoints)
  | some breakpoint =>
    if !breakpoint.enabled then (false, breakpoints)
    else
      match breakpoint.condition with
      | some cond =>
        if cond != "" then
          match ev cond context with
          | .error _ => (false, breakpoints)
          | .ok b =>
            if !b then (false, breakpoints)
            else (true, bumpHit breakpoints bp_id)
        else (true, bumpHit breakpoints bp_id)
      | none => (true, bumpHit breakpoints bp_id)

/-! ## inspector.py (StateInspector) -/

/-- A state snapshot (`inspector.py`, `take_snapshot`): the
`context_preview` display map is elided (no claim mentions it); the
timestamp string is supplied by the caller in place of
`datetime.now().isoformat()`. -/
structure Snapshot where
  step : Int
  node_id : String
  timestamp : String
  context_keys : List String
deriving DecidableEq

/-- `StateInspector` state. -/
structure StateInspector where
  snapshots : List Snapshot := []
deriving DecidableEq

/-- `StateInspector.take_snapshot`: builds the snapshot and appends it —
unconditionally, with no uniqueness check on `step`. -/
def take_snapshot (insp : StateInspector) (step : Int) (node_id : String)
    (context : List (String × Int)) (timestamp : String) :
    StateInspector × Snapshot :=
  let snapshot : Snapshot :=
    { step := step
      node_id := node_id
      timestamp := timestamp
      context_keys := context.map (fun p => p.1) }
  ({ snapshots := insp.snapshots ++ [snapshot] }, snapshot)

/-- `StateInspector.get_snapshot`: first snapshot with the given step. -/
def get_snapshot (insp : StateInspector) (step : Int) : Option Snapshot :=
  insp.snapshots.find? (fun s => s.step == step)

/-- Result of `compare_snapshots`: either the structured error dict or the
diff.  The Python key lists `list(keys2 - keys1)` etc. are produced from
sets in unspecified iteration order, so the diff carries the sets. -/
inductive CompareResult where
  | err (msg : String)
  | diff (added_keys removed_keys common_keys : Finset String) (step_diff : Int)
deriving DecidableEq

/-- `added_keys` of a compare result, if it is a diff. -/
def CompareResult.added : CompareResult → Option (Finset String)
  | .diff a _ _ _ => some a
  | .err _ => none

/-- `removed_keys` of a compare result, if it is a diff. -/
def CompareResult.removed : CompareResult → Option (Finset String)
  | .diff _ r _ _ => some r
  | .err _ => none

/-- `common_keys` of a compare result, if it is a diff. -/
def CompareResult.common : CompareResult → Option (Finset String)
  | .diff _ _ c _ => some c
  | .err _ => none

/-- `step_diff` of a compare result, if it is a diff. -/
def CompareResult.stepDiff : CompareResult → Option Int
  | .diff _ _ _ d => some d
  | .err _ => none

/-- `StateInspector.compare_snapshots`: pure set algebra on the two
snapshots' key sets and a signed step delta; a structured error when
either step has no snapshot. -/
def compare_snapshots (insp : StateInspector) (step1 step2 : Int) : CompareResult :=
  match get_snapshot insp step1, get_snapshot insp step2 with
  | some snap1, some snap2 =>
    let keys1 := snap1.context_keys.toFinset
    let keys2 := snap2.context_keys.toFinset
    .diff (keys2 \ keys1) (keys1 \ keys2) (keys1 ∩ keys2) (step2 - step1)
  | _, _ => .err "One or both snapshots not found"

/-- One `take_snapshot` invocation, for reasoning about call sequences. -/
structure SnapCall where
  step : Int
  node_id : String
  context : List (String × Int)
  timestamp : String

/-- Run a sequence of `take_snapshot` calls against an inspector. -/
def runSnaps (insp : StateInspector) (calls : List SnapCall) : StateInspector :=
  calls.foldl (fun i c => (take_snapshot i c.step c.node_id c.context c.timestamp).1) insp

/-- The snapshot a single call appends. -/
def snapOfCall (c : SnapCall) : Snapshot :=
  { step := c.step
    node_id := c.node_id
    timestamp := c.timestamp
    context_keys := c.context.map (fun p => p.1) }

/-! ## visualizer.py -/

/-- Modelled from the spec: the `EdgeCondition` tags of `framework.graph`
(the module is not under `src/`; only its callers are).  The members
`ON_SUCCESS` and `CONDITIONAL` appear in the example templates, and the
spec's §8 example scenario and §4.5 write the condition tags in
lowercase (`on_success`, `conditional`), matching the repository's enum
convention (`BreakpointType` maps `NODE_ENTER` to `"node_enter"`). -/
inductive EdgeCondition where
  | ALWAYS
  | ON_SUCCESS
  | ON_FAILURE
  | CONDITIONAL
deriving DecidableEq

/-- Modelled from the spec: the `.value` strings of `EdgeCondition` are
the lowercase condition tags (see `EdgeCondition`). -/
def EdgeCondition.value : EdgeCondition → String
  | .ALWAYS => "always"
  | .ON_SUCCESS => "on_success"
  | .ON_FAILURE => "on_failure"
  | .CONDITIONAL => "conditional"

/-- Modelled from the spec: §6's read-only edge description (id, source,
target, condition tag, optional condition expression); exactly the
fields the debug subsystem reads. -/
structure EdgeSpec where
  id : String
  source : String
  target : String
  condition : EdgeCondition
  condition_expr : Option String := none
deriving DecidableEq

/-- Modelled from the spec: §6's read-only node description, restricted
to the fields the visualizer reads. -/
structure NodeSpec where
  id : String
  name : String
  node_type : String
deriving DecidableEq

/-- Modelled from the spec: §6's read-only graph description. -/
structure GraphSpec where
  nodes : List NodeSpec
  edges : List EdgeSpec
  entry_point : String
deriving DecidableEq

/-- The per-edge attribute list of `GraphVisualizer.render_dot`
(visualizer.py lines 144–157): a `label` attribute carrying
`edge.condition.value` (plus `\n` and the condition expression when that
is truthy), and a `style="dashed"` attribute added when the *uppercase*
literal `"CONDITIONAL"` occurs in the condition string. -/
def dot_edge_attrs (edge : EdgeSpec) : List String :=
  let condition := edge.condition.value
  let label :=
    match edge.condition_expr with
    | some expr => if expr != "" then condition ++ "\\n" ++ expr else condition
    | none => condition
  let attrs := ["label=\x22" ++ label ++ "\x22"]
  if strContains condition "CONDITIONAL" then attrs ++ ["style=\x22dashed\x22"]
  else attrs

/-- The edge statements of `render_dot`, one per edge in order. -/
def render_dot_edge_lines (g : GraphSpec) : List String :=
  g.edges.map (fun edge =>
    "    " ++ edge.source ++ " -> " ++ edge.target ++ " ["
      ++ String.intercalate ", " (dot_edge_attrs edge) ++ "];")

/-- The inner depth-first search of `GraphVisualizer.find_execution_paths`:
abandons the branch once `depth > max_depth`, appends the current node to
the path, records the path at a node with no outgoing edges, otherwise
recurses along every outgoing edge. -/
def dfs (edges : List EdgeSpec) (max_depth : Nat) (current : String)
    (path : List String) (depth : Nat) : List (List String) :=
  if h : depth > max_depth then []
  else
    let path2 := path ++ [current]
    let outgoing := edges.filter (fun e => e.source == current)
    if outgoing.isEmpty then [path2]
    else outgoing.flatMap (fun e => dfs edges max_depth e.target path2 (depth + 1))
termination_by max_depth + 1 - depth
decreasing_by omega

/-- `GraphVisualizer.find_execution_paths`. -/
def find_execution_paths (g : GraphSpec) (start_node : Option String)
    (max_depth : Nat) : List (List String) :=
  let start := start_node.getD g.entry_point
  dfs g.edges max_depth start [] 0

/-- A node with no outgoing edges, exactly as `dfs` tests it. -/
def hasNoOutgoing (edges : List EdgeSpec) (v : String) : Prop :=
  edges.filter (fun e => e.source == v) = []

/-- Some edge of the graph goes from `a` to `b`. -/
def isEdge (edges : List EdgeSpec) (a b : String) : Prop :=
  ∃ e ∈ edges, e.source = a ∧ e.target = b

/-- `p` is a terminal execution path from `start`: it starts at `start`,
consecutive nodes are joined by edges, and its last node has no outgoing
edges. -/
def isTerminalPathFrom (edges : List EdgeSpec) (start : String) (p : List String) : Prop :=
  p.head? = some start ∧ List.Chain' (isEdge edges) p ∧
    ∀ x, p.getLast? = some x → hasNoOutgoing edges x

instance (edges : List EdgeSpec) (a b : String) : Decidable (isEdge edges a b) := by
  unfold isEdge; infer_instance

instance (edges : List EdgeSpec) (v : String) : Decidable (hasNoOutgoing edges v) := by
  unfold hasNoOutgoing; infer_instance

/-! ## Concrete example data used by the witnesses -/

/-- A finished `ToolCall` record used as payload of unmatched close
operations in witnesses. -/
def tcDemo : ToolCall :=
  { id := 0, tool_name := "a", arguments := [], start_time := 1 }

/-- Breakpoint dict after `set_breakpoint("B", NODE_ENTER)` (no condition). -/
def bpsDemo : List (String × Breakpoint) :=
  (set_breakpoint [] "B" BreakpointType.NODE_ENTER none).1

/-- The breakpoint created by `set_breakpoint("B", NODE_ENTER)`. -/
def bpDemo : Breakpoint :=
  (set_breakpoint [] "B" BreakpointType.NODE_ENTER none).2

/-- Breakpoint dict after `set_breakpoint("B", NODE_ENTER, "x > 0")`. -/
def bpsCondDemo : List (String × Breakpoint) :=
  (set_breakpoint [] "B" BreakpointType.NODE_ENTER (some "x > 0")).1

/-- The breakpoint created by `set_breakpoint("B", NODE_ENTER, "x > 0")`. -/
def bpCondDemo : Breakpoint :=
  (set_breakpoint [] "B" BreakpointType.NODE_ENTER (some "x > 0")).2

/-- Tracer state after `start_trace("trace-1")` at model time 1. -/
def tracerTraced : ToolCallTracer := (start_trace tracerInit "trace-1" 1).1

/-- The trace created by `start_trace("trace-1")` at model time 1. -/
def traceDemo : ExecutionTrace := (start_trace tracerInit "trace-1" 1).2

/-- Inspector with snapshots at steps 0 and 1. -/
def inspDemo : StateInspector :=
  (take_snapshot (take_snapshot {} 0 "A" [("x", 1)] "t0").1 1 "B" [("y", 2)] "t1").1

/-- The spec's §8 example graph `A→B (on_success)`, `B→C (conditional, "x>0")`. -/
def graphDotDemo : GraphSpec :=
  { nodes := [{ id := "A", name := "A", node_type := "n" },
              { id := "B", name := "B", node_type := "n" },
              { id := "C", name := "C", node_type := "n" }]
    edges := [{ id := "e1", source := "A", target := "B",
                condition := EdgeCondition.ON_SUCCESS },
              { id := "e2", source := "B", target := "C",
                condition := EdgeCondition.CONDITIONAL, condition_expr := some "x>0" }]
    entry_point := "A" }

/-! # Theorems -/

/-! ## Helper lemmas -/

theorem lookup_bumpHit (m : List (String × Breakpoint)) (k : String) :
    (bumpHit m k).lookup k
      = (m.lookup k).map (fun bp => { bp with hit_count := bp.hit_count + 1 }) := by
  induction m with
  | nil => rfl
  | cons p rest ih =>
    obtain ⟨k', v⟩ := p
    have hmap : bumpHit ((k', v) :: rest) k
        = (if k' = k then (k', { v with hit_count := v.hit_count + 1 }) else (k', v))
          :: bumpHit rest k := rfl
    rw [hmap]
    by_cases h : k' = k
    · rw [if_pos h]
      subst h
      simp [List.lookup]
    · rw [if_neg h]
      have hbeq : (k == k') = false := by simpa using Ne.symm h
      simp [List.lookup, hbeq, ih]

theorem applyOp_depth_start (t : ToolCallTracer) (n : String)
    (a : List (String × Int)) (now : Int) :
    (applyOp t (TraceOp.start n a now)).call_stack_depth = t.call_stack_depth + 1 := rfl

theorem applyOp_depth_close (t : ToolCallTracer) (tc : ToolCall)
    (r : Option Int) (e : Option String) (now : Int) :
    (applyOp t (TraceOp.close tc r e now)).call_stack_depth
      = max 0 (t.call_stack_depth - 1) := rfl

theorem runOps_cons (t : ToolCallTracer) (op : TraceOp) (ops : List TraceOp) :
    runOps t (op :: ops) = runOps (applyOp t op) ops := rfl

theorem runOps_append (t : ToolCallTracer) (u v : List TraceOp) :
    runOps t (u ++ v) = runOps (runOps t u) v := by
  simp [runOps, List.foldl_append]

theorem runOps_depth_nonneg (ops : List TraceOp) :
    ∀ t : ToolCallTracer, 0 ≤ t.call_stack_depth →
      0 ≤ (runOps t ops).call_stack_depth := by
  induction ops with
  | nil => intro t h; exact h
  | cons op rest ih =>
    intro t h
    rw [runOps_cons]
    refine ih _ ?_
    cases op with
    | start n a now => rw [applyOp_depth_start]; omega
    | close tc r e now => rw [applyOp_depth_close]; exact le_max_left 0 _

theorem runOps_balanced_depth {w : List TraceOp} (hw : Balanced w) :
    ∀ t : ToolCallTracer, 0 ≤ t.call_stack_depth →
      (runOps t w).call_stack_depth = t.call_stack_depth := by
  induction hw with
  | nil => intro t _; rfl
  | wrap n a now tc r e now2 w _ ih =>
    intro t h
    have h2 : (runOps (applyOp t (TraceOp.start n a now)) w).call_stack_depth
        = t.call_stack_depth + 1 := by
      rw [ih _ (by rw [applyOp_depth_start]; omega), applyOp_depth_start]
    have key : runOps t ((TraceOp.start n a now :: w) ++ [TraceOp.close tc r e now2])
        = applyOp (runOps (applyOp t (TraceOp.start n a now)) w)
            (TraceOp.close tc r e now2) := by
      rw [runOps_append]
      rfl
    rw [key, applyOp_depth_close, h2]
    omega
  | append u v _ _ ihu ihv =>
    intro t h
    rw [runOps_append, ihv _ (by rw [ihu t h]; exact h), ihu t h]

theorem runSnaps_snapshots (calls : List SnapCall) :
    ∀ insp : StateInspector,
      (runSnaps insp calls).snapshots = insp.snapshots ++ calls.map snapOfCall := by
  induction calls with
  | nil => intro insp; simp [runSnaps]
  | cons c rest ih =>
    intro insp
    have h1 : runSnaps insp (c :: rest)
        = runSnaps (take_snapshot insp c.step c.node_id c.context c.timestamp).1 rest := rfl
    rw [h1, ih]
    simp [take_snapshot, snapOfCall]

theorem steps_pairwise_unique (l : List Snapshot)
    (hp : (l.map (fun s => s.step)).Pairwise (· < ·)) :
    ∀ a ∈ l, ∀ b ∈ l, a.step = b.step → a = b := by
  induction l with
  | nil => simp
  | cons x xs ih =>
    rw [List.map_cons, List.pairwise_cons] at hp
    obtain ⟨hx, hxs⟩ := hp
    intro a ha b hb hab
    rcases List.mem_cons.mp ha with rfl | ha' <;> rcases List.mem_cons.mp hb with rfl | hb'
    · rfl
    · exact absurd hab (by have := hx b.step (List.mem_map_of_mem _ hb'); omega)
    · exact absurd hab (by have := hx a.step (List.mem_map_of_mem _ ha'); omega)
    · exact ih hxs a ha' b hb' hab

theorem dfs_eq (edges : List EdgeSpec) (max_depth : Nat) (current : String)
    (path : List String) (depth : Nat) :
    dfs edges max_depth current path depth =
      if depth > max_depth then []
      else
        let path2 := path ++ [current]
        let outgoing := edges.filter (fun e => e.source == current)
        if outgoing.isEmpty then [path2]
        else outgoing.flatMap (fun e => dfs edges max_depth e.target path2 (depth + 1)) := by
  rw [dfs]
  split <;> rfl

theorem dfs_sound (fuel : Nat) :
    ∀ (edges : List EdgeSpec) (maxD depth : Nat) (current : String) (path : List String),
      maxD + 1 - depth ≤ fuel →
      ∀ p ∈ dfs edges maxD current path depth,
        p.length ≤ path.length + (maxD + 1 - depth) ∧
        ∃ x, p.getLast? = some x ∧ hasNoOutgoing edges x := by
  induction fuel with
  | zero =>
    intro edges maxD depth current path hf p hp
    rw [dfs_eq, if_pos (by omega)] at hp
    cases hp
  | succ fuel ih =>
    intro edges maxD depth current path hf p hp
    rw [dfs_eq] at hp
    by_cases hd : depth > maxD
    · rw [if_pos hd] at hp
      cases hp
    · rw [if_neg hd] at hp
      simp only at hp
      by_cases hout : (edges.filter (fun e => e.source == current)).isEmpty
      · rw [if_pos hout] at hp
        have hp' : p = path ++ [current] := by simpa using hp
        subst hp'
        refine ⟨by simp; omega, current, List.getLast?_concat _, ?_⟩
        exact List.isEmpty_iff.mp hout
      · rw [if_neg hout] at hp
        rw [List.mem_flatMap] at hp
        obtain ⟨e, _, hpe⟩ := hp
        have := ih edges maxD (depth + 1) e.target (path ++ [current])
          (by omega) p hpe
        refine ⟨?_, this.2⟩
        have h1 := this.1
        simp only [List.length_append, List.length_cons, List.length_nil] at h1 ⊢
        omega

theorem dfs_complete :
    ∀ (p : List String) (edges : List EdgeSpec) (maxD depth : Nat)
      (pre : List String) (current : String),
      p.head? = some current → List.Chain' (isEdge edges) p →
      (∀ x, p.getLast? = some x → hasNoOutgoing edges x) →
      depth + p.length ≤ maxD + 1 →
      (pre ++ p) ∈ dfs edges maxD current pre depth := by
  intro p
  induction p with
  | nil =>
    intro edges maxD depth pre current h
    cases h
  | cons v rest ih =>
    intro edges maxD depth pre current hhead hchain hlast hlen
    have hv : v = current := by simpa using hhead
    subst hv
    rw [dfs_eq]
    have hnd : ¬ depth > maxD := by
      simp only [List.length_cons] at hlen
      omega
    rw [if_neg hnd]
    dsimp only
    cases rest with
    | nil =>
      have hterm : hasNoOutgoing edges v := hlast v (by simp)
      have hfe : edges.filter (fun e => e.source == v) = [] := hterm
      rw [hfe]
      simp
    | cons b rest2 =>
      have hcc := List.chain'_cons.mp hchain
      obtain ⟨e, he, hs, ht⟩ := hcc.1
      have houtmem : e ∈ edges.filter (fun e2 => e2.source == v) := by
        simp [List.mem_filter, he, hs]
      have hout : ¬ (edges.filter (fun e2 => e2.source == v)).isEmpty = true := by
        simp only [List.isEmpty_iff]
        exact List.ne_nil_of_mem houtmem
      rw [if_neg hout, List.mem_flatMap]
      refine ⟨e, houtmem, ?_⟩
      have hstep := ih edges maxD (depth + 1) (pre ++ [v]) b rfl hcc.2
        (fun x hx => hlast x (by rw [List.getLast?_cons_cons]; exact hx))
        (by simp only [List.length_cons] at hlen ⊢; omega)
      rw [ht]
      simpa [List.append_assoc] using hstep

/-! ## Claim theorems -/

/-- C2: a breakpoint set with no condition and enabled makes
`_should_break` return true on its (event-kind, target) identity and
bump exactly that breakpoint's hit counter by 1; an unknown identity or
a disabled breakpoint yields false with the breakpoint dict unchanged
(no hit counter moves). -/
theorem should_break_no_condition
    (ev : String → Ctx → Except Unit Bool) (bps : List (String × Breakpoint))
    (bt : BreakpointType) (target : String) (ctx : Ctx) (bp : Breakpoint) :
    (bps.lookup (bpId bt target) = some bp → bp.condition = none → bp.enabled = true →
      _should_break ev bps bt target ctx = (true, bumpHit bps (bpId bt target)) ∧
      (bumpHit bps (bpId bt target)).lookup (bpId bt target)
        = some { bp with hit_count := bp.hit_count + 1 }) ∧
    (bps.lookup (bpId bt target) = none →
      _should_break ev bps bt target ctx = (false, bps)) ∧
    (bps.lookup (bpId bt target) = some bp → bp.enabled = false →
      _should_break ev bps bt target ctx = (false, bps)) := by
  refine ⟨?_, ?_, ?_⟩
  · intro hl hc he
    constructor
    · simp [_should_break, hl, hc, he]
    · rw [lookup_bumpHit, hl]
      rfl
  · intro hl
    simp [_should_break, hl]
  · intro hl he
    simp [_should_break, hl, he]

/-- C2 witness: the no-condition breakpoint on node-enter `B` fires and
its hit counter goes from 0 to 1. -/
theorem should_break_no_condition_witness :
    _should_break (fun _ _ => Except.ok true) bpsDemo BreakpointType.NODE_ENTER "B" []
      = (true, bumpHit bpsDemo (bpId BreakpointType.NODE_ENTER "B")) ∧
    (bumpHit bpsDemo (bpId BreakpointType.NODE_ENTER "B")).lookup
        (bpId BreakpointType.NODE_ENTER "B")
      = some { bpDemo with hit_count := bpDemo.hit_count + 1 } :=
  (should_break_no_condition (fun _ _ => Except.ok true) bpsDemo
    BreakpointType.NODE_ENTER "B" [] bpDemo).1 (by decide) (by decide) (by decide)

/-- C5: when a breakpoint's condition raises during evaluation (the
evaluator oracle reports `.error`), `_should_break` returns false — the
exception is swallowed, never propagated (the function is total by
construction) — and the breakpoint dict, hit counter included, is
unchanged; a condition evaluating to a falsy value behaves the same. -/
theorem should_break_condition_failure
    (ev : String → Ctx → Except Unit Bool) (bps : List (String × Breakpoint))
    (bt : BreakpointType) (target : String) (ctx : Ctx) (bp : Breakpoint)
    (cond : String)
    (hl : bps.lookup (bpId bt target) = some bp)
    (he : bp.enabled = true)
    (hc : bp.condition = some cond) (hne : cond ≠ "") :
    (ev cond ctx = Except.error () → _should_break ev bps bt target ctx = (false, bps)) ∧
    (ev cond ctx = Except.ok false → _should_break ev bps bt target ctx = (false, bps)) := by
  constructor <;> intro hev <;> simp [_should_break, hl, he, hc, hne, hev]

/-- C5 witness: a raising evaluator and a falsy evaluator both yield a
false verdict with the breakpoint dict unchanged. -/
theorem should_break_condition_failure_witness :
    _should_break (fun _ _ => Except.error ()) bpsCondDemo BreakpointType.NODE_ENTER "B" []
      = (false, bpsCondDemo) ∧
    _should_break (fun _ _ => Except.ok false) bpsCondDemo BreakpointType.NODE_ENTER "B" []
      = (false, bpsCondDemo) :=
  ⟨(should_break_condition_failure (fun _ _ => Except.error ()) bpsCondDemo
      BreakpointType.NODE_ENTER "B" [] bpCondDemo "x > 0"
      (by decide) (by decide) (by decide) (by decide)).1 rfl,
   (should_break_condition_failure (fun _ _ => Except.ok false) bpsCondDemo
      BreakpointType.NODE_ENTER "B" [] bpCondDemo "x > 0"
      (by decide) (by decide) (by decide) (by decide)).2 rfl⟩

/-- C7: snapshot comparison is anti-symmetric — `added` of one direction
is `removed` of the other, `common` agrees, `step_diff` negates — and a
missing snapshot on either side yields the structured error value, not
an exception (the function is total by construction). -/
theorem compare_snapshots_antisymm (insp : StateInspector) (s1 s2 : Int)
    (_hne : s1 ≠ s2) :
    (compare_snapshots insp s1 s2).added = (compare_snapshots insp s2 s1).removed ∧
    (compare_snapshots insp s1 s2).removed = (compare_snapshots insp s2 s1).added ∧
    (compare_snapshots insp s1 s2).common = (compare_snapshots insp s2 s1).common ∧
    (compare_snapshots insp s1 s2).stepDiff
      = (compare_snapshots insp s2 s1).stepDiff.map (fun d => -d) ∧
    ((get_snapshot insp s1 = none ∨ get_snapshot insp s2 = none) →
      compare_snapshots insp s1 s2 = CompareResult.err "One or both snapshots not found") := by
  rcases h1 : get_snapshot insp s1 with _ | a <;>
    rcases h2 : get_snapshot insp s2 with _ | b <;>
      simp [compare_snapshots, h1, h2, CompareResult.added, CompareResult.removed,
        CompareResult.common, CompareResult.stepDiff, Finset.inter_comm, neg_sub]

/-- C7 witness: on the two-snapshot inspector, added keys of (0,1) equal
removed keys of (1,0). -/
theorem compare_snapshots_antisymm_witness :
    (compare_snapshots inspDemo 0 1).added = (compare_snapshots inspDemo 1 0).removed :=
  (compare_snapshots_antisymm inspDemo 0 1 (by decide)).1

/-- C10: ending a tool call with `error=""` finalizes it exactly like no
error at all — status `"success"`, result stored — and the status is
`"failed"` precisely when the error argument is a non-empty string. -/
theorem end_tool_call_empty_error (t : ToolCallTracer) (tc : ToolCall) (r now : Int) :
    ((end_tool_call t tc (some r) (some "") now).2).status = "success" ∧
    ((end_tool_call t tc (some r) (some "") now).2).result = some r ∧
    ((end_tool_call t tc (some r) none now).2).status = "success" ∧
    ((end_tool_call t tc (some r) none now).2).result = some r ∧
    (∀ e : String,
      ((end_tool_call t tc (some r) (some e) now).2).status = "failed" ↔ e ≠ "") := by
  refine ⟨rfl, rfl, rfl, rfl, ?_⟩
  intro e
  by_cases he : e = "" <;>
    simp [end_tool_call, finishCall, strOptTruthy, he]

/-- C10 witness: ending `tcDemo` with the empty-string error yields
status `"success"` with the result stored. -/
theorem end_tool_call_empty_error_witness :
    ((end_tool_call tracerInit tcDemo (some 1) (some "") 3).2).status = "success" ∧
    ((end_tool_call tracerInit tcDemo (some 1) (some "") 3).2).result = some 1 :=
  ⟨(end_tool_call_empty_error tracerInit tcDemo 1 3).1,
   (end_tool_call_empty_error tracerInit tcDemo 1 3).2.1⟩

/-- C9 counterexample: two `take_snapshot` calls with the same step
number 0 leave *two* snapshots with step 0 in the list — `take_snapshot`
enforces no uniqueness, so the claimed invariant fails. -/
theorem take_snapshot_duplicate_steps :
    ((runSnaps {} [⟨0, "A", [], "t1"⟩, ⟨0, "B", [], "t2"⟩]).snapshots.countP
        (fun s => s.step == 0)) = 2 ∧
    ¬ (((runSnaps {} [⟨0, "A", [], "t1"⟩, ⟨0, "B", [], "t2"⟩]).snapshots.countP
        (fun s => s.step == 0)) ≤ 1) := by decide

/-- C9 amended: when the `take_snapshot` calls of one inspector lifetime
carry strictly increasing step numbers (as the step counter does in
normal use), the snapshot list is ordered by step, holds at most one
snapshot per step number, and `get_snapshot` identifies a unique
snapshot. -/
theorem take_snapshot_unique_of_increasing (calls : List SnapCall)
    (h : (calls.map (fun c => c.step)).Pairwise (· < ·)) :
    ((runSnaps {} calls).snapshots.map (fun s => s.step)).Pairwise (· < ·) ∧
    (∀ a ∈ (runSnaps {} calls).snapshots, ∀ b ∈ (runSnaps {} calls).snapshots,
      a.step = b.step → a = b) ∧
    (∀ s a, get_snapshot (runSnaps {} calls) s = some a →
      ∀ b ∈ (runSnaps {} calls).snapshots, b.step = s → b = a) := by
  have hsnap : (runSnaps {} calls).snapshots = calls.map snapOfCall := by
    simpa using runSnaps_snapshots calls {}
  have hp : ((runSnaps {} calls).snapshots.map (fun s => s.step)).Pairwise (· < ·) := by
    rw [hsnap, List.map_map]
    have hcomp : ((fun s : Snapshot => s.step) ∘ snapOfCall)
        = fun c : SnapCall => c.step := rfl
    rw [hcomp]
    exact h
  refine ⟨hp, steps_pairwise_unique _ hp, ?_⟩
  intro s a hfind b hb hbs
  rw [get_snapshot] at hfind
  have ha := List.mem_of_find?_eq_some hfind
  have has : a.step = s := by simpa using List.find?_some hfind
  exact steps_pairwise_unique _ hp b hb a ha (by rw [hbs, has])

/-- C9 amended witness: two calls with steps 0 then 1 leave a list whose
steps are strictly increasing. -/
theorem take_snapshot_unique_of_increasing_witness :
    ((runSnaps {} [⟨0, "A", [], "t0"⟩, ⟨1, "B", [], "t1"⟩]).snapshots.map
        (fun s => s.step)).Pairwise (· < ·) :=
  (take_snapshot_unique_of_increasing [⟨0, "A", [], "t0"⟩, ⟨1, "B", [], "t1"⟩]
    (by decide)).1

/-- C4 counterexample: `start_tool_call` stores `arguments.copy()` — a
*shallow* copy.  With caller arguments `{"x": <list at address 0>}` and
heap `[[1]]`, mutating the nested list in place (`heapSet 0 [2]`)
changes what the recorded arguments materialize to: the record is not a
deep copy. -/
theorem start_tool_call_args_not_deep_copy :
    materialize (heapSet [[1]] 0 [2])
        (start_tool_call_arguments_snapshot [("x", PyVal.ref 0)])
      ≠ materialize [[1]] (start_tool_call_arguments_snapshot [("x", PyVal.ref 0)]) := by
  decide

/-- C4 amended: the stored arguments are a *shallow* copy of the passed
mapping — the top-level entries are snapshotted (so later rebinding of
keys in the caller's dict leaves the record unchanged), and heap
mutation of an object *not* referenced by any entry leaves the record's
materialization unchanged; but a nested container shared through a
reference is visible in the record after in-place mutation. -/
theorem start_tool_call_args_shallow_copy
    (args : List (String × PyVal)) (heap : PyHeap) (a : Nat) (xs : List Int) :
    start_tool_call_arguments_snapshot args = args ∧
    ((∀ kv ∈ args, kv.2 ≠ PyVal.ref a) →
      materialize (heapSet heap a xs) (start_tool_call_arguments_snapshot args)
        = materialize heap (start_tool_call_arguments_snapshot args)) ∧
    (∀ k, (k, PyVal.ref a) ∈ args → a < heap.length →
      (k, ObsVal.list xs) ∈ materialize (heapSet heap a xs)
        (start_tool_call_arguments_snapshot args)) := by
  refine ⟨rfl, ?_, ?_⟩
  · intro hno
    unfold materialize start_tool_call_arguments_snapshot
    refine List.map_congr_left ?_
    intro p hp
    rcases hv : p.2 with n | b
    · rfl
    · have hb : b ≠ a := by
        intro hba
        exact hno p hp (by rw [hv, hba])
      simp [materializeVal, heapSet, List.getD, List.getElem?_set_ne (Ne.symm hb)]
  · intro k hk hlen
    unfold materialize start_tool_call_arguments_snapshot
    refine List.mem_map.mpr ⟨(k, PyVal.ref a), hk, ?_⟩
    simp [materializeVal, heapSet, List.getD, List.getElem?_set_self hlen]

/-- C4 amended witness: the mutated nested list is visible in the record,
and mutation of an unreferenced address leaves the record unchanged. -/
theorem start_tool_call_args_shallow_copy_witness :
    (("x", ObsVal.list [2]) ∈ materialize (heapSet [[1]] 0 [2])
        (start_tool_call_arguments_snapshot [("x", PyVal.ref 0)])) ∧
    materialize (heapSet [[1], [7]] 1 [9])
        (start_tool_call_arguments_snapshot [("x", PyVal.ref 0)])
      = materialize [[1], [7]] (start_tool_call_arguments_snapshot [("x", PyVal.ref 0)]) :=
  ⟨(start_tool_call_args_shallow_copy [("x", PyVal.ref 0)] [[1]] 0 [2]).2.2
      "x" (by decide) (by decide),
   (start_tool_call_args_shallow_copy [("x", PyVal.ref 0)] [[1], [7]] 1 [9]).2.1
      (by decide)⟩

/-- C1: the depth stamped by `start_tool_call` equals the tracer's
call-stack depth before the increment; a start nested inside an open
call (after any intervening balanced activity) stamps exactly one more
than the enclosing stamp, so nested stamps strictly increase; any
well-nested operation sequence run from a fresh tracer returns the
depth to 0; and the depth never becomes negative under any operation
sequence, unmatched closes included. -/
theorem tracer_depth_invariants
    (t : ToolCallTracer) (w ops : List TraceOp)
    (n n2 : String) (a a2 : List (String × Int)) (c1 c2 : Int)
    (hw : Balanced w) (h0 : 0 ≤ t.call_stack_depth) :
    (start_tool_call t n a c1).2.call_stack_depth = t.call_stack_depth ∧
    (start_tool_call (runOps (start_tool_call t n a c1).1 w) n2 a2 c2).2.call_stack_depth
      = (start_tool_call t n a c1).2.call_stack_depth + 1 ∧
    (runOps tracerInit w).call_stack_depth = 0 ∧
    0 ≤ (runOps t ops).call_stack_depth := by
  refine ⟨rfl, ?_, ?_, runOps_depth_nonneg ops t h0⟩
  · have hs : (start_tool_call t n a c1).1.call_stack_depth = t.call_stack_depth + 1 := rfl
    have hrun := runOps_balanced_depth hw (start_tool_call t n a c1).1 (by rw [hs]; omega)
    show (runOps (start_tool_call t n a c1).1 w).call_stack_depth = t.call_stack_depth + 1
    rw [hrun, hs]
  · exact runOps_balanced_depth hw tracerInit (by decide)

/-- C1 witness: a balanced start/close pair from the fresh tracer drives
the depth back to 0, and a lone unmatched close keeps it non-negative. -/
theorem tracer_depth_invariants_witness :
    (runOps tracerInit [TraceOp.start "a" [] 1, TraceOp.close tcDemo none none 2]).call_stack_depth
      = 0 ∧
    0 ≤ (runOps tracerInit [TraceOp.close tcDemo none none 9]).call_stack_depth :=
  ⟨(tracer_depth_invariants tracerInit
      [TraceOp.start "a" [] 1, TraceOp.close tcDemo none none 2]
      [TraceOp.close tcDemo none none 9] "a" "b" [] [] 1 2
      (Balanced.wrap "a" [] 1 tcDemo none none 2 [] Balanced.nil) (by decide)).2.2.1,
   (tracer_depth_invariants tracerInit
      [TraceOp.start "a" [] 1, TraceOp.close tcDemo none none 2]
      [TraceOp.close tcDemo none none 9] "a" "b" [] [] 1 2
      (Balanced.wrap "a" [] 1 tcDemo none none 2 [] Balanced.nil) (by decide)).2.2.2⟩

/-- C3: `find_execution_paths` (terminating by construction — its
recursion is well-founded on the depth bound) returns only paths of at
most `max_depth + 1` nodes, each ending at a node with no outgoing
edges — a depth-exceeded branch contributes nothing; conversely, every
terminal path from the start node whose length fits within the bound is
returned, so on an acyclic graph a large enough bound returns every
terminal path. -/
theorem find_execution_paths_spec (g : GraphSpec) (d : Nat) (s : Option String) :
    (∀ p ∈ find_execution_paths g s d,
      p.length ≤ d + 1 ∧ ∃ x, p.getLast? = some x ∧ hasNoOutgoing g.edges x) ∧
    (∀ p, isTerminalPathFrom g.edges (s.getD g.entry_point) p → p.length ≤ d + 1 →
      p ∈ find_execution_paths g s d) := by
  constructor
  · intro p hp
    have hp' : p ∈ dfs g.edges d (s.getD g.entry_point) [] 0 := hp
    have h := dfs_sound (d + 1) g.edges d 0 (s.getD g.entry_point) [] (by omega) p hp'
    exact ⟨by simpa using h.1, h.2⟩
  · intro p hterm hlen
    obtain ⟨hh, hc, hl⟩ := hterm
    have h := dfs_complete p g.edges d 0 [] (s.getD g.entry_point) hh hc hl (by omega)
    simpa using h

/-- C3 witness: on the acyclic graph `A→B→C` the full terminal path is
returned within bound 10, has at most 11 nodes, and ends terminal. -/
theorem find_execution_paths_spec_witness :
    ["A", "B", "C"] ∈ find_execution_paths graphDotDemo none 10 ∧
    ((["A", "B", "C"] : List String).length ≤ 10 + 1 ∧
      ∃ x, (["A", "B", "C"] : List String).getLast? = some x ∧
        hasNoOutgoing graphDotDemo.edges x) := by
  have hmem := (find_execution_paths_spec graphDotDemo 10 none).2 ["A", "B", "C"]
    (by
      refine ⟨rfl, ?_, ?_⟩
      · refine List.chain'_cons.mpr ⟨?_, List.chain'_cons.mpr ⟨?_, ?_⟩⟩
        · exact ⟨⟨"e1", "A", "B", EdgeCondition.ON_SUCCESS, none⟩, by decide, rfl, rfl⟩
        · exact ⟨⟨"e2", "B", "C", EdgeCondition.CONDITIONAL, some "x>0"⟩, by decide, rfl, rfl⟩
        · exact List.chain'_singleton _
      · intro x hx
        have hx' : x = "C" := by simpa using hx.symm
        subst hx'
        decide)
    (by decide)
  exact ⟨hmem, (find_execution_paths_spec graphDotDemo 10 none).1 _ hmem⟩

/-- C6: a call started and then ended with a non-empty error string
(e.g. `"timeout"`) gets status `"failed"` with the error stored, while
ending with no error yields status `"success"` with the result stored;
`duration_ms` is `(end−start)·1000` and non-negative; the call leaves
the active-calls list; and `get_tool_call_stats` counts the failed call
under `failed` and not under `successful`. -/
theorem end_tool_call_failure_spec
    (t : ToolCallTracer) (tr : ExecutionTrace) (name : String)
    (args : List (String × Int)) (t1 t2 : Int) (err : String) (r : Int)
    (htr : t.current_trace = some tr)
    (hfresh1 : t.next_id ∉ t.active_tool_calls)
    (hfresh2 : ∀ c ∈ tr.tool_calls, c.id ≠ t.next_id)
    (hpos : 0 < t1) (hle : t1 ≤ t2) (herr : err ≠ "") :
    (let s1 := (start_tool_call t name args t1).1
     let tc := (start_tool_call t name args t1).2
     let s2 := (end_tool_call s1 tc (some r) (some err) t2).1
     let tc2 := (end_tool_call s1 tc (some r) (some err) t2).2
     tc2.status = "failed" ∧ tc2.error = some err ∧
     ((end_tool_call s1 tc (some r) none t2).2).status = "success" ∧
     ((end_tool_call s1 tc (some r) none t2).2).result = some r ∧
     tc2.duration_ms = some ((t2 - t1) * 1000) ∧ (0 : Int) ≤ (t2 - t1) * 1000 ∧
     tc.id ∉ s2.active_tool_calls ∧
     get_tool_call_stats s2 = some
       { total_calls := tr.tool_calls.length + 1
         successful := (tr.tool_calls.filter (fun c => c.status == "success")).length
         failed := (tr.tool_calls.filter (fun c => c.status == "failed")).length + 1
         tools_used := ((tr.tool_calls ++ [tc2]).map (fun c => c.tool_name)).dedup }) := by
  have h1 : (t1 != 0) = true := by simpa using (show t1 ≠ 0 by omega)
  have h2 : (t2 != 0) = true := by simpa using (show t2 ≠ 0 by omega)
  have h3 : strOptTruthy (some err) = true := by simpa [strOptTruthy] using herr
  have htc2 : (end_tool_call (start_tool_call t name args t1).1
      (start_tool_call t name args t1).2 (some r) (some err) t2).2
      = { id := t.next_id, tool_name := name, arguments := args, start_time := t1,
          end_time := some t2, duration_ms := some ((t2 - t1) * 1000),
          result := none, error := some err, status := "failed",
          call_stack_depth := t.call_stack_depth } := by
    simp [end_tool_call, start_tool_call, finishCall, h1, h2, h3]
  have hact : ((end_tool_call (start_tool_call t name args t1).1
      (start_tool_call t name args t1).2 (some r) (some err) t2).1).active_tool_calls
      = t.active_tool_calls := by
    show ((start_tool_call t name args t1).1.active_tool_calls).erase
        ((start_tool_call t name args t1).2.id) = t.active_tool_calls
    show (t.active_tool_calls ++ [t.next_id]).erase t.next_id = t.active_tool_calls
    rw [List.erase_append_right _ hfresh1, List.erase_cons_head]
    simp
  have hmap : (tr.tool_calls ++ [(start_tool_call t name args t1).2]).map
      (fun c => if c.id = (start_tool_call t name args t1).2.id
        then (end_tool_call (start_tool_call t name args t1).1
          (start_tool_call t name args t1).2 (some r) (some err) t2).2 else c)
      = tr.tool_calls ++ [(end_tool_call (start_tool_call t name args t1).1
          (start_tool_call t name args t1).2 (some r) (some err) t2).2] := by
    rw [List.map_append]
    congr 1
    · calc tr.tool_calls.map (fun c => if c.id = (start_tool_call t name args t1).2.id
            then (end_tool_call (start_tool_call t name args t1).1
              (start_tool_call t name args t1).2 (some r) (some err) t2).2 else c)
          = tr.tool_calls.map id := by
            refine List.map_congr_left ?_
            intro c hc
            rw [if_neg (show ¬ (c.id = (start_tool_call t name args t1).2.id)
              from hfresh2 c hc)]
            rfl
      _ = tr.tool_calls := List.map_id _
    · simp
  have htrace : ((end_tool_call (start_tool_call t name args t1).1
      (start_tool_call t name args t1).2 (some r) (some err) t2).1).current_trace
      = some { tr with tool_calls := tr.tool_calls
          ++ [(end_tool_call (start_tool_call t name args t1).1
            (start_tool_call t name args t1).2 (some r) (some err) t2).2] } := by
    simp only [end_tool_call, start_tool_call, htr]
    simp only [Option.map_some']
    exact congrArg some (by
      rw [ExecutionTrace.mk.injEq]
      exact ⟨rfl, rfl, rfl, rfl, hmap, rfl⟩)
  have hstatus : ((end_tool_call (start_tool_call t name args t1).1
      (start_tool_call t name args t1).2 (some r) (some err) t2).2).status = "failed" := by
    rw [htc2]
  refine ⟨hstatus, by rw [htc2], rfl, rfl, by rw [htc2],
    mul_nonneg (by omega) (by norm_num), ?_, ?_⟩
  · show (start_tool_call t name args t1).2.id ∉
      ((end_tool_call (start_tool_call t name args t1).1
        (start_tool_call t name args t1).2 (some r) (some err) t2).1).active_tool_calls
    rw [hact]
    exact hfresh1
  · show get_tool_call_stats ((end_tool_call (start_tool_call t name args t1).1
        (start_tool_call t name args t1).2 (some r) (some err) t2).1) = _
    rw [get_tool_call_stats, htrace]
    simp only [List.filter_append, List.length_append, List.map_append]
    congr 1
    rw [ToolCallStats.mk.injEq]
    refine ⟨by simp, ?_, ?_, rfl⟩
    · rw [show List.filter (fun tc => tc.status == "success")
          [(end_tool_call (start_tool_call t name args t1).1
            (start_tool_call t name args t1).2 (some r) (some err) t2).2] = [] from by
        simp [List.filter, hstatus]]
      simp
    · rw [show List.filter (fun tc => tc.status == "failed")
          [(end_tool_call (start_tool_call t name args t1).1
            (start_tool_call t name args t1).2 (some r) (some err) t2).2]
          = [(end_tool_call (start_tool_call t name args t1).1
            (start_tool_call t name args t1).2 (some r) (some err) t2).2] from by
        simp [List.filter, hstatus]]
      simp

/-- C6 witness: the spec's scenario — a `"search"` call ended with
`error="timeout"` — has status `"failed"` and a non-negative duration. -/
theorem end_tool_call_failure_spec_witness :
    ((end_tool_call (start_tool_call tracerTraced "search" [] 5).1
        (start_tool_call tracerTraced "search" [] 5).2
        (some 0) (some "timeout") 7).2).status = "failed" ∧
    ((end_tool_call (start_tool_call tracerTraced "search" [] 5).1
        (start_tool_call tracerTraced "search" [] 5).2
        (some 0) (some "timeout") 7).2).duration_ms = some ((7 - 5) * 1000) := by
  have h := end_tool_call_failure_spec tracerTraced traceDemo "search" [] 5 7 "timeout" 0
    rfl (by decide) (by decide) (by decide) (by decide) (by decide)
  exact ⟨h.1, h.2.2.2.2.1⟩

/-- C8: the code contradicts the spec's example — `render_dot` tests for
the uppercase literal `"CONDITIONAL"` inside the lowercase condition
value `"conditional"`, so the `B→C` conditional edge gets *no*
`style="dashed"` attribute (nor does any other edge). -/
theorem render_dot_no_dashed_on_conditional :
    render_dot_edge_lines graphDotDemo
      = ["    A -> B [label=\x22on_success\x22];",
         "    B -> C [label=\x22conditional\\nx>0\x22];"] ∧
    (∀ line ∈ render_dot_edge_lines graphDotDemo, strContains line "dashed" = false) ∧
    (∀ edge ∈ graphDotDemo.edges, "style=\x22dashed\x22" ∉ dot_edge_attrs edge) := by
  decide

end Hive
